import Mathlib

/-!
Shallow embedding of the BayBE `Campaign` state machine (`src/baybe/campaign.py`)
and of the `NumericDiscrete` parameter validation (`src/baybe/parameters.py`).

Dataframes are modelled as lists of rows; a row is an association list from
column names to cells; a cell is `Option CellV` where `none` plays the role of
pandas `NaN` (and of a missing column).  The pandas "dtype kind in iufb" test
is modelled by carrying, per dataframe, the set of columns whose dtype is of
numeric kind.  Machine floats are modelled as rationals.

The recommender object (`self.recommender.recommend`) is external to the
excerpted sources; its computation is abstracted as a function argument of
`recommend`.  The fuzzy row matcher (`baybe.utils.dataframe.fuzzy_row_match`)
and the annotated-searchspace filtering are not part of the sources either and
are modelled from the spec where indicated.
-/

/-- A cell value: a number or a string label. -/
inductive CellV where
  | num (q : ℚ)
  | str (s : String)
deriving DecidableEq

/-- A cell: `none` models pandas `NaN`. -/
abbrev Cell := Option CellV

/-- A dataframe row: association list from column name to cell. -/
abbrev Row := List (String × Cell)

/-- Column access within a row; an absent column reads as `NaN`. -/
def getCell (r : Row) (c : String) : Cell :=
  match r.find? (fun p => p.1 == c) with
  | some p => p.2
  | none => none

/-- A dataframe: rows plus the set of columns whose pandas dtype kind is one
of `iufb` (integer, unsigned, float, bool). -/
structure DF where
  rows : List Row
  numericCols : List String
deriving DecidableEq

/-- Models `data[c].isna().any()`. -/
def anyNa (d : DF) (c : String) : Bool :=
  d.rows.any fun r => (getCell r c).isNone

/-- Models `data[c].dtype.kind in "iufb"`. -/
def numericKind (d : DF) (c : String) : Bool :=
  d.numericCols.contains c

/-- One row of the searchspace metadata ledger (`_searchspace_metadata`):
the three boolean columns of `_METADATA_COLUMNS`. -/
structure Flags where
  recommended : Bool
  measured : Bool
  excluded : Bool
deriving DecidableEq

/-- The all-false metadata row (also used as out-of-range default). -/
def noFlags : Flags := ⟨false, false, false⟩

def updMeasured (f : Flags) : Flags := { f with measured := true }

def updRecommended (f : Flags) : Flags := { f with recommended := true }

def updExcluded (e : Bool) (f : Flags) : Flags := { f with excluded := e }

/-- A parameter of the searchspace, as consumed by `add_measurements` and the
fuzzy matcher: its column name, whether it `is_numerical`, and its declared
tolerance (meaningful for numerical parameters). -/
structure Param where
  name : String
  is_numerical : Bool
  tolerance : ℚ
deriving DecidableEq

/-- `SearchSpaceType` of `baybe.searchspace.core`. -/
inductive SearchSpaceType where
  | discrete
  | continuous
  | hybrid
deriving DecidableEq

/-- A measurement-log row (`_measurements_exp`): the submitted cells plus the
bookkeeping columns `BatchNr` and `FitNr` (`none` is the `np.nan` sentinel
meaning "not yet attributed to a fit"). -/
structure MRow where
  cells : Row
  batchNr : ℕ
  fitNr : Option ℕ
deriving DecidableEq

/-- Shape of a concrete pure recommender, as far as `get_surrogate` inspects
it: either a `BayesianRecommender` subclass or not. -/
inductive PureRec where
  | bayesian
  | nonBayesian
deriving DecidableEq

/-- The configured recommender object: a pure recommender or a
`MetaRecommender` whose `get_current_recommender()` yields the wrapped one. -/
inductive RecObj where
  | pureR (p : PureRec)
  | meta (current : RecObj)
deriving DecidableEq

/-- The `Campaign` aggregate (attrs fields of `baybe.campaign.Campaign`).
The discrete subspace is represented by its experimental representation
`exp_rep` (one row per discrete candidate) and the parameter list; the
metadata ledger `meta` is positionally aligned with `exp_rep`.  The stored
recommender's *behaviour* is passed to `recommend` as a function argument;
only its (meta/bayesian) shape is kept here for `get_surrogate`. -/
structure Campaign where
  sstype : SearchSpaceType
  exp_rep : List Row
  params : List Param
  objective : Option (List String)
  recommenderObj : RecObj
  meta : List Flags
  n_batches_done : ℕ
  n_fits_done : ℕ
  measurements : List MRow
  cached : List ℕ
deriving DecidableEq

/-- `self.targets`: the objective's target names, or empty without objective. -/
def targetsOf (c : Campaign) : List String := c.objective.getD []

/-- Positional flag update: `ledger.loc[idxs, col] = value`, walking the list
with its position `j`. -/
def setFlagsFrom (upd : Flags → Flags) (idxs : List ℕ) : ℕ → List Flags → List Flags
  | _, [] => []
  | j, f :: fs => (if idxs.contains j then upd f else f) :: setFlagsFrom upd idxs (j + 1) fs

/-- `ledger.loc[idxs, col] = value` on the positionally indexed ledger. -/
def setFlags (m : List Flags) (idxs : List ℕ) (upd : Flags → Flags) : List Flags :=
  setFlagsFrom upd idxs 0 m

/-- Validation errors of `add_measurements` (§7 taxonomy: the two `ValueError`
raises are `MissingValue`, the two `TypeError` raises are `NonNumericValue`). -/
inductive AddErr where
  | missingValueTarget (t : String)
  | nonNumericTarget (t : String)
  | missingValueParam (p : String)
  | nonNumericParam (p : String)
deriving DecidableEq

/-- Whether an error is of the `MissingValue` kind. -/
def isMissingValueErr : Option AddErr → Bool
  | some (.missingValueTarget _) => true
  | some (.missingValueParam _) => true
  | _ => false

/-- The target validation loop of `add_measurements` (campaign.py:218-228):
first failing check wins, NaN check before dtype-kind check, targets in
order. -/
def firstTargetErr (data : DF) : List String → Option AddErr
  | [] => none
  | t :: ts =>
    if anyNa data t then some (.missingValueTarget t)
    else if ¬ numericKind data t then some (.nonNumericTarget t)
    else firstTargetErr data ts

/-- The parameter validation loop of `add_measurements` (campaign.py:231-241). -/
def firstParamErr (data : DF) : List Param → Option AddErr
  | [] => none
  | p :: ps =>
    if anyNa data p.name then some (.missingValueParam p.name)
    else if p.is_numerical ∧ ¬ numericKind data p.name then some (.nonNumericParam p.name)
    else firstParamErr data ps

/-- Absolute value on ℚ by explicit case split (unlike the lattice-derived
`abs`, this reduces inside the kernel, keeping the embedding executable). -/
def ratAbs (q : ℚ) : ℚ := if q < 0 then -q else q

theorem ratAbs_eq_abs (q : ℚ) : ratAbs q = |q| := by
  unfold ratAbs
  rcases lt_or_ge q 0 with h | h
  · rw [if_pos h, abs_of_neg h]
  · rw [if_neg (not_lt.mpr h), abs_of_nonneg h]

/-- Modelled from the spec (§4.3): one comparison step of
`baybe.utils.dataframe.fuzzy_row_match`, whose body is not among the sources.
A discrete candidate row matches a submitted row when every parameter column
agrees: exact equality for non-numerical parameters; for numerical parameters,
within the declared tolerance when the tolerance flag is set, else exact
equality. -/
def rowMatchesCandidate (params : List Param) (tolFlag : Bool) (cand meas : Row) : Bool :=
  params.all fun p =>
    if p.is_numerical ∧ tolFlag then
      match getCell cand p.name, getCell meas p.name with
      | some (.num x), some (.num y) => decide (ratAbs (x - y) ≤ p.tolerance)
      | _, _ => false
    else decide (getCell cand p.name = getCell meas p.name)

/-- Modelled from the spec (§4.3): the index set returned by
`fuzzy_row_match` — all discrete candidate positions matched by at least one
submitted row (a submitted row may match zero, one, or several candidates). -/
def matchedIdxs (exp_rep : List Row) (params : List Param) (rows : List Row)
    (tolFlag : Bool) : List ℕ :=
  (List.range exp_rep.length).filter fun i =>
    rows.any fun m => rowMatchesCandidate params tolFlag (exp_rep.getD i []) m

/-- `Campaign._mark_as_measured` (campaign.py:268-287): flag every fuzzy-matched
candidate index as measured. -/
def mark_as_measured (c : Campaign) (data : DF) (tolFlag : Bool) : Campaign :=
  { c with meta := setFlags c.meta (matchedIdxs c.exp_rep c.params data.rows tolFlag) updMeasured }

/-- Result of `add_measurements`: the campaign state on return (also on an
exceptional return: the code mutates `self` before raising), the raised
error if any, and the caller-visible value of the `data` argument after the
call. -/
structure AddOut where
  campaign : Campaign
  err : Option AddErr
  dataAfter : DF
deriving DecidableEq

/-- `Campaign.add_measurements` (campaign.py:190-266).  Step by step:
invalidate the cache (line 215); validate targets (218-228) then parameters
(231-241); on success increment `n_batches_done` (244), build
`to_insert = data.copy()` stamped with the new `BatchNr` and unset `FitNr`
(245-247), append it to the log (249-251), and fuzzy-mark for discrete/hybrid
spaces (254-257).  Note that `to_insert` is a copy: the caller's `data` flows
through unchanged. -/
def add_measurements (c : Campaign) (data : DF) (tolFlag : Bool) : AddOut :=
  let c1 := { c with cached := ([] : List ℕ) }
  match firstTargetErr data (targetsOf c1) with
  | some e => ⟨c1, some e, data⟩
  | none =>
    match firstParamErr data c1.params with
    | some e => ⟨c1, some e, data⟩
    | none =>
      let n := c1.n_batches_done + 1
      let to_insert := data.rows.map fun r => MRow.mk r n none
      let c2 := { c1 with n_batches_done := n, measurements := c1.measurements ++ to_insert }
      let c3 :=
        if c2.sstype = .discrete ∨ c2.sstype = .hybrid then
          mark_as_measured c2 data tolFlag
        else c2
      ⟨c3, none, data⟩

/-- The abstract recommender computation (`self.recommender.recommend`,
external to the sources): from the batch size, the annotated discrete
subspace (experimental representation plus metadata ledger), the objective,
the measurement log, and the pending experiments, it produces a batch given
as a list of discrete candidate positions. -/
abbrev Recommender :=
  ℕ → List Row → List Flags → Option (List String) → List MRow → List Row → List ℕ

inductive RecErr where
  | invalidBatchSize
deriving DecidableEq

/-- Result of `recommend`: final campaign state plus the returned batch (or
the `InvalidArgument` error for `batch_size < 1`). -/
structure RecOut where
  campaign : Campaign
  result : Except RecErr (List ℕ)

/-- The batch returned to the caller by a `recommend` call ([] on error). -/
def returnedBatch (o : RecOut) : List ℕ :=
  match o.result with
  | .ok l => l
  | .error _ => []

/-- Cache invalidation at the head of `recommend` (campaign.py:358-360):
unconditional when nonempty pending experiments are supplied. -/
def invalidatePending (c : Campaign) (pending : List Row) : Campaign :=
  if 0 < pending.length then { c with cached := ([] : List ℕ) } else c

/-- Fit bookkeeping of `recommend` (campaign.py:367-370): when the measurement
log is nonempty, increment `n_fits_done` and `fillna` the `FitNr` column with
the new value. -/
def stampFits (c : Campaign) : Campaign :=
  if 0 < c.measurements.length then
    { c with
      n_fits_done := c.n_fits_done + 1,
      measurements := c.measurements.map fun m =>
        { m with fitNr := some (m.fitNr.getD (c.n_fits_done + 1)) } }
  else c

/-- `Campaign.recommend` (campaign.py:334-400).  Step by step: reject
`batch_size < 1` (352-356); invalidate the cache on pending experiments
(358-360); serve from the cache when its length equals the batch size
(362-365); otherwise advance the fit bookkeeping (367-370), delegate to the
recommender on the annotated searchspace (372-387), cache the result (390),
and flag the returned discrete candidates as recommended (392-394). -/
def recommend (R : Recommender) (c : Campaign) (batch_size : ℕ)
    (pending : List Row) : RecOut :=
  if batch_size < 1 then ⟨c, .error .invalidBatchSize⟩
  else
    let c1 := invalidatePending c pending
    if c1.cached.length = batch_size then ⟨c1, .ok c1.cached⟩
    else
      let c2 := stampFits c1
      let rec_ := R batch_size c2.exp_rep c2.meta c2.objective c2.measurements pending
      let c3 := { c2 with cached := rec_ }
      let c4 :=
        if c3.sstype = .discrete ∨ c3.sstype = .hybrid then
          { c3 with meta := setFlags c3.meta rec_ updRecommended }
        else c3
      ⟨c4, .ok rec_⟩

/-- The `filter` argument of `toggle_discrete_candidates`: a dataframe whose
columns are a subset of the discrete parameter columns. -/
structure DFilter where
  cols : List String
  rows : List Row
deriving DecidableEq

/-- Result of `toggle_discrete_candidates`: the affected candidate positions
(the returned subset) and the campaign state on return. -/
structure ToggleOut where
  points : List ℕ
  campaign : Campaign
deriving DecidableEq

/-- `Campaign.toggle_discrete_candidates` (campaign.py:289-332).  The
left-merge with `indicator=True` marks a discrete row as `both` when some
filter row agrees on all join columns (the common columns of the two frames);
with `anti=False` the `left_only` rows are dropped (the matched subset is
kept), with `anti=True` the `both` rows are dropped.  The ledger's `excluded`
column is set to `exclude` on exactly the kept positions unless `dry_run`. -/
def toggle_discrete_candidates (c : Campaign) (filter : DFilter)
    (exclude : Bool) (anti : Bool) (dry_run : Bool) : ToggleOut :=
  let common := filter.cols.filter fun col => (c.params.map (·.name)).contains col
  let matched : ℕ → Bool := fun i =>
    filter.rows.any fun fr =>
      common.all fun col => decide (getCell (c.exp_rep.getD i []) col = getCell fr col)
  let points := (List.range c.exp_rep.length).filter fun i => matched i != anti
  let c' :=
    if dry_run then c
    else { c with meta := setFlags c.meta points (updExcluded exclude) }
  ⟨points, c'⟩

/-- Capability-mismatch errors of `get_surrogate` (campaign.py:448-451 raises
on a missing objective, 463-469 on a non-Bayesian recommender). -/
inductive SurrErr where
  | noObjective
  | notBayesian
deriving DecidableEq

/-- Modelled from the spec (§6): a fitted surrogate, represented by the data
`BayesianRecommender.get_surrogate(searchspace, objective, measurements)` is
given (the fitting itself is external to the sources); campaign.py:460-462
passes exactly the current searchspace, the objective, and the full
measurement log. -/
structure Surrogate where
  sstype : SearchSpaceType
  exp_rep : List Row
  params : List Param
  objective : List String
  measurements : List MRow
deriving DecidableEq

/-- One-level unwrapping of a meta-recommender via
`get_current_recommender()` (campaign.py:453-457). -/
def unwrapOnce : RecObj → RecObj
  | .meta r => r
  | r => r

/-- `isinstance(pure_recommender, BayesianRecommender)` (campaign.py:459):
a meta-recommender is not itself a Bayesian recommender. -/
def isBayesianRec : RecObj → Bool
  | .pureR .bayesian => true
  | _ => false

/-- Whether an `Except` carries a value. -/
def isOkE {ε α : Type _} : Except ε α → Bool
  | .ok _ => true
  | .error _ => false

/-- `Campaign.get_surrogate` (campaign.py:432-469). -/
def get_surrogate (c : Campaign) : Except SurrErr Surrogate :=
  match c.objective with
  | none => .error .noObjective
  | some obj =>
    let pure_recommender := unwrapOnce c.recommenderObj
    if isBayesianRec pure_recommender then
      .ok ⟨c.sstype, c.exp_rep, c.params, obj, c.measurements⟩
    else .error .notBayesian

/-- Validation errors during `NumericDiscrete` construction
(parameters.py:29-40 and 179-200). -/
inductive NDErr where
  | tooFewValues
  | duplicateValues
  | toleranceTooLarge
deriving DecidableEq

/-- `NumericDiscrete` (parameters.py:164-226): a discrete numerical parameter
with its declared values and input tolerance. -/
structure NumericDiscrete where
  name : String
  values : List ℚ
  tolerance : ℚ
deriving DecidableEq

/-- The pairwise distance list of `validate_tolerance` (parameters.py:189):
`|values[i] - values[j]|` for all index pairs `i ≠ j` (the diagonal is set to
infinity in the code, i.e. removed from the minimum). -/
def pairwiseDists (l : List ℚ) : List ℚ :=
  (List.range l.length).flatMap fun i =>
    (List.range l.length).filterMap fun j =>
      if i ≠ j then some (ratAbs (l.getD i 0 - l.getD j 0)) else none

/-- Minimum of a list of rationals (`dists.min()`), `none` on empty. -/
def listMin : List ℚ → Option ℚ
  | [] => none
  | x :: xs =>
    some (match listMin xs with
      | none => x
      | some m => if x ≤ m then x else m)

/-- `_validate_value_list` (parameters.py:29-40): at least two values, no
duplicates. -/
def validate_value_list (vs : List ℚ) : Option NDErr :=
  if vs.length < 2 then some .tooFewValues
  else if ¬ vs.Nodup then some .duplicateValues
  else none

/-- Construction of a `NumericDiscrete`, running the pydantic validators in
order: `_validate_value_list`, then `validate_tolerance`
(parameters.py:179-200), which rejects `tolerance >= dists.min() / 2`.  The
`none` branch of the minimum is unreachable once at least two values exist. -/
def mkNumericDiscrete (nm : String) (vs : List ℚ) (tol : ℚ) :
    Except NDErr NumericDiscrete :=
  match validate_value_list vs with
  | some e => .error e
  | none =>
    match listMin (pairwiseDists vs) with
    | none => .error .toleranceTooLarge
    | some m => if m / 2 ≤ tol then .error .toleranceTooLarge else .ok ⟨nm, vs, tol⟩

/-- `NumericDiscrete.is_in_range` (parameters.py:212-219): some declared value
lies within the tolerance of the item. -/
def is_in_range (p : NumericDiscrete) (x : ℚ) : Bool :=
  p.values.any fun v => decide (ratAbs (v - x) ≤ p.tolerance)

/-- An operation of the Campaign state machine, for stating invariants over
operation sequences. -/
inductive Op where
  | recommendOp (R : Recommender) (batch_size : ℕ) (pending : List Row)
  | addOp (data : DF) (tolFlag : Bool)
  | toggleOp (filter : DFilter) (exclude : Bool) (anti : Bool) (dry_run : Bool)

/-- The state transition of one Campaign method call. -/
def step (c : Campaign) : Op → Campaign
  | .recommendOp R k pd => (recommend R c k pd).campaign
  | .addOp d f => (add_measurements c d f).campaign
  | .toggleOp F e a d => (toggle_discrete_candidates c F e a d).campaign

/-- Running a sequence of Campaign method calls. -/
def run (c : Campaign) (ops : List Op) : Campaign := ops.foldl step c

theorem setFlagsFrom_getD (upd : Flags → Flags) (idxs : List ℕ) :
    ∀ (m : List Flags) (j i : ℕ),
      (setFlagsFrom upd idxs j m).getD i noFlags =
        if i < m.length ∧ idxs.contains (j + i) = true then upd (m.getD i noFlags)
        else m.getD i noFlags
  | [], j, i => by simp [setFlagsFrom]
  | f :: fs, j, 0 => by
      by_cases h : idxs.contains j = true <;>
        simp [setFlagsFrom, h]
  | f :: fs, j, (i + 1) => by
      have IH := setFlagsFrom_getD upd idxs fs (j + 1) i
      simp only [setFlagsFrom, List.getD_cons_succ, List.length_cons]
      rw [IH, show j + (i + 1) = (j + 1) + i from by omega]
      exact if_congr (by simp) rfl rfl

theorem setFlags_getD (m : List Flags) (idxs : List ℕ) (upd : Flags → Flags) (i : ℕ) :
    (setFlags m idxs upd).getD i noFlags =
      if i < m.length ∧ idxs.contains i = true then upd (m.getD i noFlags)
      else m.getD i noFlags := by
  have h := setFlagsFrom_getD upd idxs m 0 i
  simpa [setFlags] using h

theorem invalidatePending_nilPending (c : Campaign) : invalidatePending c [] = c := by
  simp [invalidatePending]

theorem invalidatePending_meta (c : Campaign) (pd : List Row) :
    (invalidatePending c pd).meta = c.meta := by
  unfold invalidatePending; split <;> rfl

theorem invalidatePending_measurements (c : Campaign) (pd : List Row) :
    (invalidatePending c pd).measurements = c.measurements := by
  unfold invalidatePending; split <;> rfl

theorem invalidatePending_n_fits (c : Campaign) (pd : List Row) :
    (invalidatePending c pd).n_fits_done = c.n_fits_done := by
  unfold invalidatePending; split <;> rfl

theorem invalidatePending_exp_rep (c : Campaign) (pd : List Row) :
    (invalidatePending c pd).exp_rep = c.exp_rep := by
  unfold invalidatePending; split <;> rfl

theorem stampFits_meta (c : Campaign) : (stampFits c).meta = c.meta := by
  unfold stampFits; split <;> rfl

theorem stampFits_cached (c : Campaign) : (stampFits c).cached = c.cached := by
  unfold stampFits; split <;> rfl

theorem stampFits_exp_rep (c : Campaign) : (stampFits c).exp_rep = c.exp_rep := by
  unfold stampFits; split <;> rfl

theorem stampFits_n_fits (c : Campaign) :
    (stampFits c).n_fits_done =
      if 0 < c.measurements.length then c.n_fits_done + 1 else c.n_fits_done := by
  unfold stampFits; split <;> simp_all

theorem stampFits_measurements (c : Campaign) :
    (stampFits c).measurements =
      c.measurements.map fun m => { m with fitNr := some (m.fitNr.getD (c.n_fits_done + 1)) } := by
  unfold stampFits
  split
  · rfl
  · next h =>
      have : c.measurements = [] := by
        cases hm : c.measurements with
        | nil => rfl
        | cons a l => rw [hm] at h; simp at h
      rw [this]; rfl

/-- The cache-miss branch of `recommend` (campaign.py:367-400), factored out
for case analysis. -/
def recMissOut (R : Recommender) (c : Campaign) (k : ℕ) (pd : List Row) : RecOut :=
  let c2 := stampFits (invalidatePending c pd)
  let rec_ := R k c2.exp_rep c2.meta c2.objective c2.measurements pd
  let c3 := { c2 with cached := rec_ }
  let c4 :=
    if c3.sstype = .discrete ∨ c3.sstype = .hybrid then
      { c3 with meta := setFlags c3.meta rec_ updRecommended }
    else c3
  ⟨c4, .ok rec_⟩

theorem recommend_err (R : Recommender) (c : Campaign) (k : ℕ) (pd : List Row)
    (hk : k < 1) : recommend R c k pd = ⟨c, .error .invalidBatchSize⟩ := by
  unfold recommend
  rw [if_pos hk]

theorem recommend_hit (R : Recommender) (c : Campaign) (k : ℕ) (pd : List Row)
    (hk : ¬ k < 1) (hhit : (invalidatePending c pd).cached.length = k) :
    recommend R c k pd = ⟨invalidatePending c pd, .ok (invalidatePending c pd).cached⟩ := by
  unfold recommend
  rw [if_neg hk]
  simp only []
  rw [if_pos hhit]

theorem recommend_miss (R : Recommender) (c : Campaign) (k : ℕ) (pd : List Row)
    (hk : ¬ k < 1) (hmiss : ¬ (invalidatePending c pd).cached.length = k) :
    recommend R c k pd = recMissOut R c k pd := by
  unfold recommend recMissOut
  rw [if_neg hk]
  simp only []
  rw [if_neg hmiss]

/-- The recommender arguments on the cache-miss path. -/
def missBatch (R : Recommender) (c : Campaign) (k : ℕ) (pd : List Row) : List ℕ :=
  R k (stampFits (invalidatePending c pd)).exp_rep (stampFits (invalidatePending c pd)).meta
    (stampFits (invalidatePending c pd)).objective
    (stampFits (invalidatePending c pd)).measurements pd

theorem recMissOut_result (R : Recommender) (c : Campaign) (k : ℕ) (pd : List Row) :
    (recMissOut R c k pd).result = .ok (missBatch R c k pd) := rfl

theorem recMissOut_batch (R : Recommender) (c : Campaign) (k : ℕ) (pd : List Row) :
    returnedBatch (recMissOut R c k pd) = missBatch R c k pd := rfl

theorem recMissOut_cached (R : Recommender) (c : Campaign) (k : ℕ) (pd : List Row) :
    (recMissOut R c k pd).campaign.cached = missBatch R c k pd := by
  unfold recMissOut
  simp only []
  split <;> rfl

theorem recMissOut_n_fits (R : Recommender) (c : Campaign) (k : ℕ) (pd : List Row) :
    (recMissOut R c k pd).campaign.n_fits_done =
      (stampFits (invalidatePending c pd)).n_fits_done := by
  unfold recMissOut
  simp only []
  split <;> rfl

theorem recMissOut_measurements (R : Recommender) (c : Campaign) (k : ℕ) (pd : List Row) :
    (recMissOut R c k pd).campaign.measurements =
      (stampFits (invalidatePending c pd)).measurements := by
  unfold recMissOut
  simp only []
  split <;> rfl

theorem recMissOut_meta (R : Recommender) (c : Campaign) (k : ℕ) (pd : List Row) :
    (recMissOut R c k pd).campaign.meta = c.meta ∨
    (recMissOut R c k pd).campaign.meta =
      setFlags c.meta (missBatch R c k pd) updRecommended := by
  unfold recMissOut
  simp only []
  split
  · right
    show setFlags (stampFits (invalidatePending c pd)).meta _ _ = _
    simp only [missBatch, stampFits_meta, invalidatePending_meta]
  · left
    show (stampFits (invalidatePending c pd)).meta = c.meta
    rw [stampFits_meta, invalidatePending_meta]

theorem add_measurements_targetErrCase (c : Campaign) (data : DF) (f : Bool)
    (e : AddErr) (h : firstTargetErr data (targetsOf c) = some e) :
    add_measurements c data f = ⟨{ c with cached := ([] : List ℕ) }, some e, data⟩ := by
  unfold add_measurements
  simp only []
  rw [show targetsOf { c with cached := ([] : List ℕ) } = targetsOf c from rfl, h]

theorem add_measurements_paramErrCase (c : Campaign) (data : DF) (f : Bool)
    (e : AddErr) (h1 : firstTargetErr data (targetsOf c) = none)
    (h2 : firstParamErr data c.params = some e) :
    add_measurements c data f = ⟨{ c with cached := ([] : List ℕ) }, some e, data⟩ := by
  unfold add_measurements
  simp only []
  rw [show targetsOf { c with cached := ([] : List ℕ) } = targetsOf c from rfl, h1,
    show ({ c with cached := ([] : List ℕ) } : Campaign).params = c.params from rfl, h2]

/-- The post-validation campaign state of a successful `add_measurements`
before the metadata update (campaign.py:243-251). -/
def addSuccessCampaign (c : Campaign) (data : DF) : Campaign :=
  { c with
    cached := ([] : List ℕ),
    n_batches_done := c.n_batches_done + 1,
    measurements :=
      c.measurements ++ data.rows.map fun r => MRow.mk r (c.n_batches_done + 1) none }

theorem add_measurements_successCase (c : Campaign) (data : DF) (f : Bool)
    (h1 : firstTargetErr data (targetsOf c) = none)
    (h2 : firstParamErr data c.params = none) :
    add_measurements c data f =
      ⟨if c.sstype = .discrete ∨ c.sstype = .hybrid then
          mark_as_measured (addSuccessCampaign c data) data f
        else addSuccessCampaign c data, none, data⟩ := by
  unfold add_measurements
  simp only []
  rw [show targetsOf { c with cached := ([] : List ℕ) } = targetsOf c from rfl, h1,
    show ({ c with cached := ([] : List ℕ) } : Campaign).params = c.params from rfl, h2]
  rfl

theorem mark_as_measured_measurements (c : Campaign) (data : DF) (f : Bool) :
    (mark_as_measured c data f).measurements = c.measurements := rfl

theorem mark_as_measured_n_batches (c : Campaign) (data : DF) (f : Bool) :
    (mark_as_measured c data f).n_batches_done = c.n_batches_done := rfl

theorem firstTargetErr_none_iff (data : DF) :
    ∀ ts : List String,
      firstTargetErr data ts = none ↔
        ∀ t ∈ ts, anyNa data t = false ∧ numericKind data t = true
  | [] => by simp [firstTargetErr]
  | t :: ts => by
      by_cases hna : anyNa data t <;> by_cases hk : numericKind data t <;>
        simp [firstTargetErr, hna, hk, firstTargetErr_none_iff data ts]

theorem firstParamErr_none_iff (data : DF) :
    ∀ ps : List Param,
      firstParamErr data ps = none ↔
        ∀ p ∈ ps, anyNa data p.name = false ∧
          (p.is_numerical = true → numericKind data p.name = true)
  | [] => by simp [firstParamErr]
  | p :: ps => by
      by_cases hna : anyNa data p.name <;> by_cases hn : p.is_numerical <;>
        by_cases hk : numericKind data p.name <;>
        simp [firstParamErr, hna, hn, hk, firstParamErr_none_iff data ps]

theorem firstTargetErr_missingCase (data : DF) :
    ∀ ts : List String, (∀ t ∈ ts, numericKind data t = true) →
      ∀ t ∈ ts, anyNa data t = true →
        ∃ t', firstTargetErr data ts = some (.missingValueTarget t') ∧
          t' ∈ ts ∧ anyNa data t' = true
  | [], _, t, ht, _ => absurd ht (List.not_mem_nil t)
  | t0 :: ts, hkind, t, ht, hna => by
      by_cases h0 : anyNa data t0
      · exact ⟨t0, by simp [firstTargetErr, h0], List.mem_cons_self t0 ts, h0⟩
      · have hk0 : numericKind data t0 = true := hkind t0 (List.mem_cons_self t0 ts)
        have hts : t ∈ ts := by
          rcases List.mem_cons.mp ht with rfl | h
          · exact absurd hna (by simp [h0])
          · exact h
        obtain ⟨t', he, hm, hn⟩ :=
          firstTargetErr_missingCase data ts (fun u hu => hkind u (List.mem_cons_of_mem _ hu))
            t hts hna
        exact ⟨t', by simp [firstTargetErr, h0, hk0, he], List.mem_cons_of_mem _ hm, hn⟩

/-- A small concrete discrete campaign: grid x ∈ {1, 2}, one target `t`. -/
def sampleCampaign : Campaign :=
  { sstype := .discrete,
    exp_rep := [[("x", some (.num 1))], [("x", some (.num 2))]],
    params := [⟨"x", true, 1/10⟩],
    objective := some ["t"],
    recommenderObj := .pureR .bayesian,
    meta := [noFlags, noFlags],
    n_batches_done := 0,
    n_fits_done := 0,
    measurements := [],
    cached := [] }

/-- One valid measurement row for `sampleCampaign`. -/
def sampleData : DF := ⟨[[("x", some (.num 1)), ("t", some (.num 5))]], ["x", "t"]⟩

/-- A concrete recommender fulfilling the batch-size contract. -/
def rangeRec : Recommender := fun k _ _ _ _ _ => List.range k

/-- State after one valid measurement batch and one `recommend(1)` on
`sampleCampaign`: every log row carries a fit number and the cache holds a
batch of size 1. -/
def cAllFit : Campaign :=
  (recommend rangeRec (add_measurements sampleCampaign sampleData true).campaign 1 []).campaign

/-- C1 counterexample: on the reachable state `cAllFit` every measurement row
already carries a fit number and the `recommend(2)` call is not served from
the cache (the cached batch has size 1), yet the call increments
`n_fits_done` from 1 to 2 — refuting the claim that a recommend call on a
log with no `FitNr`-unset row does not increment `n_fits_done`. -/
theorem recommend_fit_counter_claim_counterexample :
    (∀ m ∈ cAllFit.measurements, m.fitNr ≠ none) ∧
    cAllFit.cached.length ≠ 2 ∧ cAllFit.n_fits_done = 1 ∧
    (recommend rangeRec cAllFit 2 []).campaign.n_fits_done = cAllFit.n_fits_done + 1 := by
  decide

/-- C1 (amended): for every `recommend` call that is rejected neither as
invalid nor served from the cache, `n_fits_done` is incremented if and only
if the measurement log is nonempty (campaign.py:368 tests emptiness, not the
presence of `FitNr`-unset rows), and every previously unfit row is stamped
with the new fit number while already-stamped rows keep their fit number. -/
theorem recommend_fit_counter_nonempty_log (R : Recommender) (c : Campaign)
    (k : ℕ) (pd : List Row) (hk : 1 ≤ k)
    (hmiss : (invalidatePending c pd).cached.length ≠ k) :
    ((recommend R c k pd).campaign.n_fits_done = c.n_fits_done + 1 ↔ c.measurements ≠ []) ∧
    (recommend R c k pd).campaign.measurements =
      c.measurements.map fun m => { m with fitNr := some (m.fitNr.getD (c.n_fits_done + 1)) } := by
  have hk' : ¬ k < 1 := by omega
  rw [recommend_miss R c k pd hk' hmiss, recMissOut_n_fits, recMissOut_measurements,
    stampFits_n_fits, stampFits_measurements, invalidatePending_measurements,
    invalidatePending_n_fits]
  constructor
  · by_cases hlen : 0 < c.measurements.length
    · have hne : c.measurements ≠ [] := List.length_pos.mp hlen
      simp [hlen, hne]
    · have hnil : c.measurements = [] := by
        cases hm : c.measurements with
        | nil => rfl
        | cons a l => rw [hm] at hlen; simp at hlen
      simp [hlen, hnil]
  · rfl

/-- C1 witness: the amended statement instantiated on the concrete state
`cAllFit` and the non-cached call `recommend(2)`. -/
theorem recommend_fit_counter_nonempty_log_witness :
    ((recommend rangeRec cAllFit 2 []).campaign.n_fits_done = cAllFit.n_fits_done + 1 ↔
      cAllFit.measurements ≠ []) ∧
    (recommend rangeRec cAllFit 2 []).campaign.measurements =
      cAllFit.measurements.map fun m =>
        { m with fitNr := some (m.fitNr.getD (cAllFit.n_fits_done + 1)) } :=
  recommend_fit_counter_nonempty_log rangeRec cAllFit 2 [] (by decide) (by decide)

/-- C2: with no pending experiments and no new measurements, a second
`recommend` call with the same batch size (for a recommender honouring the
batch-size contract) returns the same result as the first and leaves the
entire campaign state — counters, `FitNr` column, ledger, cache — unchanged
(campaign.py:362-365). -/
theorem recommend_idempotent_cached (R : Recommender) (c : Campaign) (k : ℕ)
    (hk : 1 ≤ k)
    (hR : ∀ er mt ob ms pd, (R k er mt ob ms pd).length = k) :
    (recommend R (recommend R c k []).campaign k []).campaign =
      (recommend R c k []).campaign ∧
    (recommend R (recommend R c k []).campaign k []).result =
      (recommend R c k []).result := by
  have hk' : ¬ k < 1 := by omega
  by_cases hc : c.cached.length = k
  · have hhit : (invalidatePending c ([] : List Row)).cached.length = k := by
      rw [invalidatePending_nilPending]; exact hc
    rw [recommend_hit R c k [] hk' hhit]
    rw [recommend_hit R _ k [] hk' (by rw [invalidatePending_nilPending]; exact hhit)]
    simp [invalidatePending_nilPending]
  · have hmiss : ¬ (invalidatePending c ([] : List Row)).cached.length = k := by
      rw [invalidatePending_nilPending]; exact hc
    rw [recommend_miss R c k [] hk' hmiss]
    have hlen : (recMissOut R c k []).campaign.cached.length = k := by
      rw [recMissOut_cached]; exact hR _ _ _ _ _
    rw [recommend_hit R _ k [] hk' (by rw [invalidatePending_nilPending]; exact hlen)]
    rw [invalidatePending_nilPending]
    exact ⟨rfl, by rw [recMissOut_result, ← recMissOut_cached]⟩

/-- C2 witness: the idempotence statement instantiated on `sampleCampaign`
with batch size 1 and the contract-honouring recommender `rangeRec`. -/
theorem recommend_idempotent_cached_witness :
    (recommend rangeRec (recommend rangeRec sampleCampaign 1 []).campaign 1 []).campaign =
      (recommend rangeRec sampleCampaign 1 []).campaign ∧
    (recommend rangeRec (recommend rangeRec sampleCampaign 1 []).campaign 1 []).result =
      (recommend rangeRec sampleCampaign 1 []).result :=
  recommend_idempotent_cached rangeRec sampleCampaign 1 (by decide)
    (fun _ _ _ _ _ => List.length_range 1)

/-- A campaign whose objective has two targets, the first of non-numeric
dtype kind; no parameters. -/
def twoTargetCampaign : Campaign :=
  { sstype := .continuous,
    exp_rep := [],
    params := [],
    objective := some ["t1", "t2"],
    recommenderObj := .pureR .bayesian,
    meta := [],
    n_batches_done := 0,
    n_fits_done := 0,
    measurements := [],
    cached := [] }

/-- One submitted row: `t1` holds a string (non-numeric object dtype, no
NaN), `t2` is a float column containing a NaN. -/
def twoTargetData : DF := ⟨[[("t1", some (.str "a")), ("t2", none)]], ["t2"]⟩

/-- C3 counterexample: the `t2` target column contains a NaN, yet
`add_measurements` fails with the `NonNumericValue` error for `t1` (the
target loop checks targets in order and the dtype check of `t1` fires
first, campaign.py:218-228), not with a `MissingValue` error. -/
theorem add_measurements_missing_target_error_kind_counterexample :
    ("t2" ∈ targetsOf twoTargetCampaign ∧ anyNa twoTargetData "t2" = true) ∧
    (add_measurements twoTargetCampaign twoTargetData true).err =
      some (AddErr.nonNumericTarget "t1") ∧
    isMissingValueErr (add_measurements twoTargetCampaign twoTargetData true).err = false := by
  decide

/-- C3 (amended): if some target column of the submitted data contains a
missing value, `add_measurements` fails before any mutation — the only state
change is the emptied recommendation cache, and the caller's dataframe is
untouched; the error is of the `MissingValue` kind whenever, additionally,
every target column is of numeric dtype kind (otherwise the first failing
check may be a `NonNumericValue` check of an earlier target). -/
theorem add_measurements_missing_target_fails (c : Campaign) (data : DF) (f : Bool)
    (hna : ∃ t ∈ targetsOf c, anyNa data t = true) :
    (add_measurements c data f).err.isSome = true ∧
    (add_measurements c data f).campaign = { c with cached := ([] : List ℕ) } ∧
    (add_measurements c data f).dataAfter = data ∧
    ((∀ t ∈ targetsOf c, numericKind data t = true) →
      ∃ t, (add_measurements c data f).err = some (AddErr.missingValueTarget t) ∧
        t ∈ targetsOf c ∧ anyNa data t = true) := by
  obtain ⟨t0, ht0, hna0⟩ := hna
  have hsome : firstTargetErr data (targetsOf c) ≠ none := by
    intro hnone
    have := ((firstTargetErr_none_iff data (targetsOf c)).mp hnone t0 ht0).1
    rw [hna0] at this
    exact Bool.true_eq_false.mp this
  obtain ⟨e, he⟩ := Option.ne_none_iff_exists'.mp hsome
  rw [add_measurements_targetErrCase c data f e he]
  refine ⟨rfl, rfl, rfl, fun hkind => ?_⟩
  obtain ⟨t', he', hm', hn'⟩ := firstTargetErr_missingCase data (targetsOf c) hkind t0 ht0 hna0
  rw [he] at he'
  exact ⟨t', by rw [he'], hm', hn'⟩

/-- One submitted row for `sampleCampaign` whose target column `t` contains
a NaN while every column is of numeric dtype kind. -/
def missingTargetData : DF := ⟨[[("x", some (.num 1)), ("t", none)]], ["x", "t"]⟩

/-- C3 witness: the amended statement instantiated on `sampleCampaign` and a
row with a missing target value. -/
theorem add_measurements_missing_target_fails_witness :
    (add_measurements sampleCampaign missingTargetData true).err.isSome = true ∧
    (add_measurements sampleCampaign missingTargetData true).campaign =
      { sampleCampaign with cached := ([] : List ℕ) } ∧
    (add_measurements sampleCampaign missingTargetData true).dataAfter = missingTargetData ∧
    ((∀ t ∈ targetsOf sampleCampaign, numericKind missingTargetData t = true) →
      ∃ t, (add_measurements sampleCampaign missingTargetData true).err =
          some (AddErr.missingValueTarget t) ∧
        t ∈ targetsOf sampleCampaign ∧ anyNa missingTargetData t = true) :=
  add_measurements_missing_target_fails sampleCampaign missingTargetData true (by decide)

/-- C4: a submission whose target and parameter columns are all valid
succeeds, increments `n_batches_done` by exactly one, appends exactly the
submitted rows to the log in order, stamps them with the new `BatchNr`, and
leaves their `FitNr` unset (campaign.py:243-251). -/
theorem add_measurements_valid_appends (c : Campaign) (data : DF) (f : Bool)
    (h1 : ∀ t ∈ targetsOf c, anyNa data t = false)
    (h2 : ∀ t ∈ targetsOf c, numericKind data t = true)
    (h3 : ∀ p ∈ c.params, anyNa data p.name = false)
    (h4 : ∀ p ∈ c.params, p.is_numerical = true → numericKind data p.name = true) :
    (add_measurements c data f).err = none ∧
    (add_measurements c data f).campaign.n_batches_done = c.n_batches_done + 1 ∧
    (add_measurements c data f).campaign.measurements =
      c.measurements ++ data.rows.map (fun r => MRow.mk r (c.n_batches_done + 1) none) ∧
    (add_measurements c data f).campaign.measurements.length =
      c.measurements.length + data.rows.length := by
  have ht : firstTargetErr data (targetsOf c) = none :=
    (firstTargetErr_none_iff data (targetsOf c)).mpr fun t htm => ⟨h1 t htm, h2 t htm⟩
  have hp : firstParamErr data c.params = none :=
    (firstParamErr_none_iff data c.params).mpr fun p hpm => ⟨h3 p hpm, h4 p hpm⟩
  rw [add_measurements_successCase c data f ht hp]
  have hmeas : (if c.sstype = .discrete ∨ c.sstype = .hybrid then
        mark_as_measured (addSuccessCampaign c data) data f
      else addSuccessCampaign c data).measurements =
      (addSuccessCampaign c data).measurements := by
    split
    · exact mark_as_measured_measurements _ data f
    · rfl
  have hbatch : (if c.sstype = .discrete ∨ c.sstype = .hybrid then
        mark_as_measured (addSuccessCampaign c data) data f
      else addSuccessCampaign c data).n_batches_done =
      (addSuccessCampaign c data).n_batches_done := by
    split
    · exact mark_as_measured_n_batches _ data f
    · rfl
  refine ⟨rfl, ?_, ?_, ?_⟩
  · rw [hbatch]; rfl
  · rw [hmeas]; rfl
  · rw [hmeas]
    show (c.measurements ++ data.rows.map fun r => MRow.mk r (c.n_batches_done + 1) none).length = _
    simp

/-- C4 witness: the statement instantiated on `sampleCampaign` with one
valid measurement row. -/
theorem add_measurements_valid_appends_witness :
    (add_measurements sampleCampaign sampleData true).err = none ∧
    (add_measurements sampleCampaign sampleData true).campaign.n_batches_done =
      sampleCampaign.n_batches_done + 1 ∧
    (add_measurements sampleCampaign sampleData true).campaign.measurements =
      sampleCampaign.measurements ++ sampleData.rows.map
        (fun r => MRow.mk r (sampleCampaign.n_batches_done + 1) none) ∧
    (add_measurements sampleCampaign sampleData true).campaign.measurements.length =
      sampleCampaign.measurements.length + sampleData.rows.length :=
  add_measurements_valid_appends sampleCampaign sampleData true
    (by decide) (by decide) (by decide) (by decide)

/-- C5: a successful `add_measurements` call leaves the caller's input
dataframe untouched — the code copies the input (`to_insert = data.copy()`,
campaign.py:245) and adds `BatchNr`/`FitNr` only to the copy, contradicting
both the claim and the function's own docstring ("Note that this modifies
the provided data in-place", campaign.py:201).  Evaluated here at a concrete
successful call on `sampleCampaign`. -/
theorem add_measurements_input_unchanged :
    (add_measurements sampleCampaign sampleData true).err = none ∧
    (add_measurements sampleCampaign sampleData true).dataAfter = sampleData := by
  decide

/-- Modelled from the spec (§3 invariant, §4.1): the annotated searchspace
lets the recommender drop explicitly excluded candidates, so a well-behaved
recommender never returns a candidate whose ledger row has `excluded` set.
This capability lives in the recommender / `AnnotatedSubspaceDiscrete`, which
are outside the excerpted sources. -/
def RespectsExclusion (R : Recommender) : Prop :=
  ∀ k er mt ob ms pd, ∀ i ∈ R k er mt ob ms pd, (mt.getD i noFlags).excluded = false

/-- A concrete exclusion-respecting recommender: the first `k` non-excluded
candidate positions. -/
def excludingRec : Recommender := fun k _ mt _ _ _ =>
  ((List.range mt.length).filter fun j => !(mt.getD j noFlags).excluded).take k

theorem excludingRec_respects : RespectsExclusion excludingRec := by
  intro k er mt ob ms pd i hi
  have h1 : i ∈ (List.range mt.length).filter fun j => !(mt.getD j noFlags).excluded :=
    List.take_subset _ _ hi
  have h2 := (List.mem_filter.mp h1).2
  simpa using h2

/-- C7 (amended, spec-modelled recommender): an excluded candidate never
appears in the batch of a `recommend` call that is *not served from the
cache*: the fit bookkeeping does not touch the ledger, so the recommender
sees the exclusion flag and drops the candidate. -/
theorem recommend_excluded_not_returned (R : Recommender) (c : Campaign)
    (k : ℕ) (pd : List Row) (i : ℕ)
    (hR : RespectsExclusion R)
    (hex : (c.meta.getD i noFlags).excluded = true)
    (hmiss : (invalidatePending c pd).cached.length ≠ k) :
    i ∉ returnedBatch (recommend R c k pd) := by
  by_cases hk : k < 1
  · rw [recommend_err R c k pd hk]
    simp [returnedBatch]
  · rw [recommend_miss R c k pd hk hmiss, recMissOut_batch]
    intro hi
    have hfalse := hR k _ _ _ _ pd i hi
    rw [stampFits_meta, invalidatePending_meta] at hfalse
    rw [hex] at hfalse
    exact Bool.true_eq_false.mp hfalse

/-- The filter matching the discrete candidate `x = 1` of `sampleCampaign`. -/
def xOneFilter : DFilter := ⟨["x"], [[("x", some (.num 1))]]⟩

/-- State reached from `sampleCampaign` by `recommend(1)` (which caches the
batch `[0]`) followed by excluding candidate 0 via
`toggle_discrete_candidates` — the toggle leaves the cache intact. -/
def cExcludedCached : Campaign :=
  (toggle_discrete_candidates (recommend excludingRec sampleCampaign 1 []).campaign
    xOneFilter true false false).campaign

/-- C7 counterexample: candidate 0 is excluded in the ledger of
`cExcludedCached`, the recommender respects exclusions, and yet the
subsequent `recommend(1)` returns candidate 0 — the call is served from the
recommendation cache, which `toggle_discrete_candidates` does not
invalidate (campaign.py:315-332 never touches `_cached_recommendation`, and
campaign.py:362-365 returns the cache before consulting the ledger). -/
theorem recommend_excluded_cached_counterexample :
    RespectsExclusion excludingRec ∧
    (cExcludedCached.meta.getD 0 noFlags).excluded = true ∧
    0 ∈ returnedBatch (recommend excludingRec cExcludedCached 1 []) :=
  ⟨excludingRec_respects, by decide, by decide⟩

/-- C7 witness: the amended statement instantiated on `cExcludedCached` and
the cache-missing call `recommend(2)`. -/
theorem recommend_excluded_not_returned_witness :
    0 ∉ returnedBatch (recommend excludingRec cExcludedCached 2 []) :=
  recommend_excluded_not_returned excludingRec cExcludedCached 2 [] 0
    excludingRec_respects (by decide) (by decide)

/-- C8: `get_surrogate` fails exactly when no objective is defined or when
the one-level-unwrapped recommender is not a Bayesian recommender
(campaign.py:448-469); in every other case it returns the surrogate fitted
on the current searchspace, the objective, and the full measurement log. -/
theorem get_surrogate_capability_cases (c : Campaign) :
    (isOkE (get_surrogate c) = false ↔
      (c.objective = none ∨ isBayesianRec (unwrapOnce c.recommenderObj) = false)) ∧
    (∀ obj, c.objective = some obj →
      isBayesianRec (unwrapOnce c.recommenderObj) = true →
      get_surrogate c = .ok ⟨c.sstype, c.exp_rep, c.params, obj, c.measurements⟩) := by
  cases hobj : c.objective with
  | none => simp [get_surrogate, hobj, isOkE]
  | some obj =>
    cases hbay : isBayesianRec (unwrapOnce c.recommenderObj) with
    | false => simp [get_surrogate, hobj, hbay, isOkE]
    | true =>
      constructor
      · simp [get_surrogate, hobj, hbay, isOkE]
      · intro obj' hobj' hbay'
        simp only [hobj, Option.some.injEq] at hobj'
        subst hobj'
        simp [get_surrogate, hobj, hbay]

/-- A campaign holding a meta-recommender that currently delegates to a
Bayesian sub-recommender. -/
def metaBayesCampaign : Campaign :=
  { sampleCampaign with recommenderObj := .meta (.pureR .bayesian) }

/-- C8 witness: the success case instantiated on a campaign with an
objective and a meta-recommender wrapping a Bayesian recommender. -/
theorem get_surrogate_capability_cases_witness :
    get_surrogate metaBayesCampaign =
      .ok ⟨metaBayesCampaign.sstype, metaBayesCampaign.exp_rep, metaBayesCampaign.params,
        ["t"], metaBayesCampaign.measurements⟩ :=
  (get_surrogate_capability_cases metaBayesCampaign).2 ["t"] rfl rfl

/-- C9: a `dry_run=True` toggle returns exactly the subset that the
corresponding `dry_run=False` call would affect (the subset computation,
campaign.py:318-327, precedes and does not depend on the `dry_run` branch)
and leaves the campaign — in particular the ledger's `excluded` column —
unchanged (campaign.py:329-330 guards the only mutation). -/
theorem toggle_dry_run_frame (c : Campaign) (F : DFilter) (e a : Bool) :
    (toggle_discrete_candidates c F e a true).points =
      (toggle_discrete_candidates c F e a false).points ∧
    (toggle_discrete_candidates c F e a true).campaign = c :=
  ⟨rfl, rfl⟩

theorem listMin_le (l : List ℚ) (m : ℚ) (hm : listMin l = some m) : ∀ d ∈ l, m ≤ d := by
  induction l generalizing m with
  | nil => simp [listMin] at hm
  | cons x xs ih =>
    intro d hd
    cases hxs : listMin xs with
    | none =>
      have hxsnil : xs = [] := by
        cases xs with
        | nil => rfl
        | cons a t => simp [listMin] at hxs
      subst hxsnil
      simp [listMin] at hm
      rcases List.mem_singleton.mp hd with rfl
      rw [← hm]
    | some m' =>
      simp only [listMin, hxs, Option.some.injEq] at hm
      have hboth : m ≤ x ∧ m ≤ m' := by
        by_cases hle : x ≤ m'
        · rw [if_pos hle] at hm
          exact ⟨le_of_eq hm.symm, hm ▸ hle⟩
        · rw [if_neg hle] at hm
          exact ⟨hm ▸ le_of_not_le hle, le_of_eq hm.symm⟩
      rcases List.mem_cons.mp hd with rfl | hmem
      · exact hboth.1
      · exact le_trans hboth.2 (ih m' hxs d hmem)

theorem pairwiseDists_mem (l : List ℚ) {v₁ v₂ : ℚ} (h1 : v₁ ∈ l) (h2 : v₂ ∈ l)
    (hne : v₁ ≠ v₂) : ratAbs (v₁ - v₂) ∈ pairwiseDists l := by
  obtain ⟨i, hi, hv1⟩ := List.mem_iff_getElem.mp h1
  obtain ⟨j, hj, hv2⟩ := List.mem_iff_getElem.mp h2
  have hij : i ≠ j := by
    intro hEq
    subst hEq
    exact hne (hv1.symm.trans hv2)
  simp only [pairwiseDists, List.mem_flatMap, List.mem_filterMap, List.mem_range]
  refine ⟨i, hi, j, hj, ?_⟩
  rw [if_pos hij, List.getD_eq_getElem l 0 hi, List.getD_eq_getElem l 0 hj, hv1, hv2]

theorem mkNumericDiscrete_validErr (nm : String) (vs : List ℚ) (tol : ℚ)
    (e : NDErr) (hv : validate_value_list vs = some e) :
    mkNumericDiscrete nm vs tol = .error e := by
  unfold mkNumericDiscrete
  rw [hv]

theorem mkNumericDiscrete_tolCheck (nm : String) (vs : List ℚ) (tol : ℚ)
    (hv : validate_value_list vs = none) (m : ℚ)
    (hm : listMin (pairwiseDists vs) = some m) :
    mkNumericDiscrete nm vs tol =
      if m / 2 ≤ tol then .error .toleranceTooLarge else .ok ⟨nm, vs, tol⟩ := by
  unfold mkNumericDiscrete
  rw [hv, hm]

theorem mkNumericDiscrete_noMin (nm : String) (vs : List ℚ) (tol : ℚ)
    (hv : validate_value_list vs = none)
    (hm : listMin (pairwiseDists vs) = none) :
    mkNumericDiscrete nm vs tol = .error .toleranceTooLarge := by
  unfold mkNumericDiscrete
  rw [hv, hm]

/-- C10: constructing a `NumericDiscrete` fails whenever the tolerance is at
least half the minimum pairwise distance of the declared values
(parameters.py:179-200); consequently, on any successfully constructed
parameter, at most one declared value lies within the tolerance of any given
number, so tolerance-based fuzzy matching against this parameter is never
ambiguous. -/
theorem numeric_discrete_tolerance_unambiguous (nm : String) (vs : List ℚ) (tol : ℚ) :
    (∀ m, listMin (pairwiseDists vs) = some m → m / 2 ≤ tol →
      isOkE (mkNumericDiscrete nm vs tol) = false) ∧
    (∀ p, mkNumericDiscrete nm vs tol = .ok p → ∀ x v₁ v₂, v₁ ∈ p.values →
      v₂ ∈ p.values → |v₁ - x| ≤ p.tolerance → |v₂ - x| ≤ p.tolerance → v₁ = v₂) := by
  constructor
  · intro m hm htol
    cases hv : validate_value_list vs with
    | some e => rw [mkNumericDiscrete_validErr nm vs tol e hv]; rfl
    | none => rw [mkNumericDiscrete_tolCheck nm vs tol hv m hm, if_pos htol]; rfl
  · intro p hp x v₁ v₂ h1 h2 hd1 hd2
    cases hv : validate_value_list vs with
    | some e =>
      rw [mkNumericDiscrete_validErr nm vs tol e hv] at hp
      exact absurd hp (by simp)
    | none =>
      cases hm : listMin (pairwiseDists vs) with
      | none =>
        rw [mkNumericDiscrete_noMin nm vs tol hv hm] at hp
        exact absurd hp (by simp)
      | some m =>
        rw [mkNumericDiscrete_tolCheck nm vs tol hv m hm] at hp
        by_cases htol : m / 2 ≤ tol
        · rw [if_pos htol] at hp
          exact absurd hp (by simp)
        · rw [if_neg htol] at hp
          have hpv : p = ⟨nm, vs, tol⟩ := by
            simp only [Except.ok.injEq] at hp
            exact hp.symm
          subst hpv
          simp only at h1 h2 hd1 hd2
          by_contra hne
          have hmem : ratAbs (v₁ - v₂) ∈ pairwiseDists vs := pairwiseDists_mem vs h1 h2 hne
          have hmle : m ≤ |v₁ - v₂| := ratAbs_eq_abs (v₁ - v₂) ▸ listMin_le _ m hm _ hmem
          have htri : |v₁ - v₂| ≤ |v₁ - x| + |x - v₂| := abs_sub_le v₁ x v₂
          have hcomm : |x - v₂| = |v₂ - x| := abs_sub_comm x v₂
          have hlt : tol < m / 2 := lt_of_not_le htol
          linarith

theorem listMin_pairwiseDists01 : listMin (pairwiseDists [0, 1]) = some 1 := by
  norm_num [pairwiseDists, ratAbs, List.range_succ, List.filterMap_cons, listMin]

theorem mkNumericDiscrete_quarter :
    mkNumericDiscrete "x" [0, 1] (1/4) = .ok ⟨"x", [0, 1], 1/4⟩ := by
  rw [mkNumericDiscrete_tolCheck "x" [0, 1] (1/4) (by decide) 1 listMin_pairwiseDists01]
  norm_num

/-- C10 witness: with values 0 and 1 the minimum pairwise distance is 1, so
tolerance 1/2 is rejected while tolerance 1/4 is accepted and matching
within it is unambiguous (instantiated at the point 1). -/
theorem numeric_discrete_tolerance_unambiguous_witness :
    isOkE (mkNumericDiscrete "x" [0, 1] (1/2)) = false ∧ (1 : ℚ) = 1 :=
  ⟨(numeric_discrete_tolerance_unambiguous "x" [0, 1] (1/2)).1 1
      listMin_pairwiseDists01 (by norm_num),
   (numeric_discrete_tolerance_unambiguous "x" [0, 1] (1/4)).2 ⟨"x", [0, 1], 1/4⟩
     mkNumericDiscrete_quarter 1 1 1 (by decide) (by decide) (by norm_num) (by norm_num)⟩

theorem toggle_step_flags (c : Campaign) (F : DFilter) (e a d : Bool) (i : ℕ) :
    ((toggle_discrete_candidates c F e a d).campaign.meta.getD i noFlags).measured =
      (c.meta.getD i noFlags).measured ∧
    ((toggle_discrete_candidates c F e a d).campaign.meta.getD i noFlags).recommended =
      (c.meta.getD i noFlags).recommended := by
  unfold toggle_discrete_candidates
  simp only []
  split
  · exact ⟨rfl, rfl⟩
  · show ((setFlags c.meta _ (updExcluded e)).getD i noFlags).measured = _ ∧
      ((setFlags c.meta _ (updExcluded e)).getD i noFlags).recommended = _
    rw [setFlags_getD]
    constructor <;> split <;> rfl

theorem add_step_meta (c : Campaign) (data : DF) (f : Bool) (i : ℕ) :
    (add_measurements c data f).campaign.meta.getD i noFlags = c.meta.getD i noFlags ∨
    ((add_measurements c data f).campaign.meta.getD i noFlags =
        updMeasured (c.meta.getD i noFlags) ∧
      (matchedIdxs c.exp_rep c.params data.rows f).contains i = true) := by
  cases ht : firstTargetErr data (targetsOf c) with
  | some e => left; rw [add_measurements_targetErrCase c data f e ht]
  | none =>
    cases hp : firstParamErr data c.params with
    | some e => left; rw [add_measurements_paramErrCase c data f e ht hp]
    | none =>
      rw [add_measurements_successCase c data f ht hp]
      simp only []
      split
      · have hsf : (mark_as_measured (addSuccessCampaign c data) data f).meta.getD i noFlags =
            if i < c.meta.length ∧
                (matchedIdxs c.exp_rep c.params data.rows f).contains i = true then
              updMeasured (c.meta.getD i noFlags)
            else c.meta.getD i noFlags :=
          setFlags_getD c.meta _ updMeasured i
        by_cases hcond : i < c.meta.length ∧
            (matchedIdxs c.exp_rep c.params data.rows f).contains i = true
        · right; exact ⟨by rw [hsf, if_pos hcond], hcond.2⟩
        · left; rw [hsf, if_neg hcond]
      · left; rfl

theorem rec_step_meta (R : Recommender) (c : Campaign) (k : ℕ) (pd : List Row) (i : ℕ) :
    (recommend R c k pd).campaign.meta.getD i noFlags = c.meta.getD i noFlags ∨
    ((recommend R c k pd).campaign.meta.getD i noFlags =
        updRecommended (c.meta.getD i noFlags) ∧
      (returnedBatch (recommend R c k pd)).contains i = true) := by
  by_cases hk : k < 1
  · left; rw [recommend_err R c k pd hk]
  · by_cases hhit : (invalidatePending c pd).cached.length = k
    · left
      rw [recommend_hit R c k pd hk hhit]
      show (invalidatePending c pd).meta.getD i noFlags = _
      rw [invalidatePending_meta]
    · rw [recommend_miss R c k pd hk hhit, recMissOut_batch]
      rcases recMissOut_meta R c k pd with hm | hm
      · left; rw [hm]
      · rw [hm, setFlags_getD]
        split
        · next hcond => right; exact ⟨rfl, hcond.2⟩
        · left; rfl

theorem step_mono (c : Campaign) (op : Op) (i : ℕ) :
    ((c.meta.getD i noFlags).measured = true →
      ((step c op).meta.getD i noFlags).measured = true) ∧
    ((c.meta.getD i noFlags).recommended = true →
      ((step c op).meta.getD i noFlags).recommended = true) := by
  cases op with
  | toggleOp F e a d =>
    simp only [step]
    have h := toggle_step_flags c F e a d i
    rw [h.1, h.2]
    exact ⟨id, id⟩
  | addOp d f =>
    simp only [step]
    rcases add_step_meta c d f i with h | ⟨h, _⟩
    · rw [h]; exact ⟨id, id⟩
    · rw [h]; exact ⟨fun _ => rfl, fun hb => hb⟩
  | recommendOp R k pd =>
    simp only [step]
    rcases rec_step_meta R c k pd i with h | ⟨h, _⟩
    · rw [h]; exact ⟨id, id⟩
    · rw [h]; exact ⟨fun hb => hb, fun _ => rfl⟩

theorem step_measured_prov (c : Campaign) (op : Op) (i : ℕ)
    (hb : (c.meta.getD i noFlags).measured = false)
    (ha : ((step c op).meta.getD i noFlags).measured = true) :
    ∃ d f, op = .addOp d f ∧
      (matchedIdxs c.exp_rep c.params d.rows f).contains i = true := by
  cases op with
  | toggleOp F e a d =>
    exfalso
    simp only [step] at ha
    rw [(toggle_step_flags c F e a d i).1, hb] at ha
    exact absurd ha (by simp)
  | recommendOp R k pd =>
    exfalso
    simp only [step] at ha
    rcases rec_step_meta R c k pd i with h | ⟨h, _⟩
    · rw [h, hb] at ha; exact absurd ha (by simp)
    · rw [h] at ha
      rw [show (updRecommended (c.meta.getD i noFlags)).measured =
        (c.meta.getD i noFlags).measured from rfl, hb] at ha
      exact absurd ha (by simp)
  | addOp d f =>
    simp only [step] at ha
    rcases add_step_meta c d f i with h | ⟨h, hc⟩
    · exfalso; rw [h, hb] at ha; exact absurd ha (by simp)
    · exact ⟨d, f, rfl, hc⟩

theorem step_recommended_prov (c : Campaign) (op : Op) (i : ℕ)
    (hb : (c.meta.getD i noFlags).recommended = false)
    (ha : ((step c op).meta.getD i noFlags).recommended = true) :
    ∃ R k pd, op = .recommendOp R k pd ∧
      (returnedBatch (recommend R c k pd)).contains i = true := by
  cases op with
  | toggleOp F e a d =>
    exfalso
    simp only [step] at ha
    rw [(toggle_step_flags c F e a d i).2, hb] at ha
    exact absurd ha (by simp)
  | addOp d f =>
    exfalso
    simp only [step] at ha
    rcases add_step_meta c d f i with h | ⟨h, _⟩
    · rw [h, hb] at ha; exact absurd ha (by simp)
    · rw [h] at ha
      rw [show (updMeasured (c.meta.getD i noFlags)).recommended =
        (c.meta.getD i noFlags).recommended from rfl, hb] at ha
      exact absurd ha (by simp)
  | recommendOp R k pd =>
    simp only [step] at ha
    rcases rec_step_meta R c k pd i with h | ⟨h, hc⟩
    · exfalso; rw [h, hb] at ha; exact absurd ha (by simp)
    · exact ⟨R, k, pd, rfl, hc⟩

/-- C6: over any sequence of Campaign operations, a discrete candidate's
`measured` and `recommended` flags are monotone (once set they stay set:
no operation ever clears them); moreover, in a single step, `measured` can
newly become set only by an `add_measurements` whose data fuzzy-matches the
candidate, and `recommended` only by a `recommend` call whose returned batch
contains the candidate. -/
theorem candidate_flags_monotone_provenance (c : Campaign) (i : ℕ) :
    (∀ ops : List Op,
      ((c.meta.getD i noFlags).measured = true →
        ((run c ops).meta.getD i noFlags).measured = true) ∧
      ((c.meta.getD i noFlags).recommended = true →
        ((run c ops).meta.getD i noFlags).recommended = true)) ∧
    (∀ op : Op,
      (((step c op).meta.getD i noFlags).measured = true →
        (c.meta.getD i noFlags).measured = true ∨
        ∃ d f, op = .addOp d f ∧
          (matchedIdxs c.exp_rep c.params d.rows f).contains i = true) ∧
      (((step c op).meta.getD i noFlags).recommended = true →
        (c.meta.getD i noFlags).recommended = true ∨
        ∃ R k pd, op = .recommendOp R k pd ∧
          (returnedBatch (recommend R c k pd)).contains i = true)) := by
  constructor
  · intro ops
    induction ops generalizing c with
    | nil => exact ⟨id, id⟩
    | cons op ops ih =>
      have hstep := step_mono c op i
      have hrest := ih (step c op)
      exact ⟨fun hb => hrest.1 (hstep.1 hb), fun hb => hrest.2 (hstep.2 hb)⟩
  · intro op
    constructor
    · intro ha
      cases hmb : (c.meta.getD i noFlags).measured with
      | true => exact Or.inl rfl
      | false => exact Or.inr (step_measured_prov c op i hmb ha)
    · intro ha
      cases hmb : (c.meta.getD i noFlags).recommended with
      | true => exact Or.inl rfl
      | false => exact Or.inr (step_recommended_prov c op i hmb ha)

/-- A campaign whose first discrete candidate is already flagged measured. -/
def measuredStartCampaign : Campaign :=
  { sampleCampaign with meta := [⟨false, true, false⟩, noFlags] }

/-- A toggle followed by a recommend call. -/
def sampleOps : List Op :=
  [Op.toggleOp xOneFilter true false false, Op.recommendOp rangeRec 1 []]

/-- C6 witness: the monotonicity part instantiated on a concrete campaign
with candidate 0 already measured, run through a toggle and a recommend. -/
theorem candidate_flags_monotone_provenance_witness :
    ((run measuredStartCampaign sampleOps).meta.getD 0 noFlags).measured = true :=
  ((candidate_flags_monotone_provenance measuredStartCampaign 0).1 sampleOps).1 (by decide)
